import Mathlib

/-!
Verification development for the native-messaging-host repository
(rickypc/native-messaging-host).

The Go sources are shallowly embedded: pure computations become Lean
functions, OS and library effects (file system, HTTP, clock, JSON/XML
codecs) become explicit parameters or environment records, and each
function's observable side effects are returned as an explicit event
trace.  Machine integers are modelled as `Nat` with explicit `% 2^32`
where Go's `uint32` conversion truncates.
-/

namespace NmHost

/-- Errors as Go `error` values.  `wrapped a b` models
`fmt.Errorf("%w %v", a, b)` (download.go rollback combination);
`statusErr c` models `fmt.Errorf("Unable to find the update: %d", c)`;
`eof` is `io.EOF`, `unexpectedEof` is `io.ErrUnexpectedEOF`; `tagged`
stands for any other concrete error value. -/
inductive GoError : Type where
  | eof : GoError
  | unexpectedEof : GoError
  | statusErr : Nat → GoError
  | tagged : String → GoError
  | wrapped : GoError → GoError → GoError
deriving DecidableEq, Repr

/-- `errMentions e t` holds when error `t` is preserved inside the
(possibly wrapped) error `e`: it is `e` itself or appears under a
`wrapped` combination.  Captures "neither cause is dropped". -/
def errMentions : GoError → GoError → Bool
  | e@(GoError.wrapped a b), t => e == t || errMentions a t || errMentions b t
  | e, t => e == t

/-- Byte order selector, modelling `binary.ByteOrder` restricted to the
two implementations the module can be configured with
(`binary.LittleEndian`, the default, and `binary.BigEndian`). -/
inductive ByteOrder : Type where
  | littleEndian : ByteOrder
  | bigEndian : ByteOrder
deriving DecidableEq, Repr

/-- `PutUint32`: the 4 header bytes for a 32-bit value `v < 2^32`,
as laid out by `binary.LittleEndian.PutUint32` /
`binary.BigEndian.PutUint32`. -/
def putUint32 (bo : ByteOrder) (v : Nat) : List Nat :=
  let b0 := v % 256
  let b1 := v / 256 % 256
  let b2 := v / 65536 % 256
  let b3 := v / 16777216 % 256
  match bo with
  | ByteOrder.littleEndian => [b0, b1, b2, b3]
  | ByteOrder.bigEndian => [b3, b2, b1, b0]

/-- `Uint32`: decode 4 bytes back into a 32-bit value, as
`binary.Read` does for a `uint32` destination after `io.ReadFull`. -/
def getUint32 (bo : ByteOrder) (bs : List Nat) : Nat :=
  match bs with
  | [b0, b1, b2, b3] =>
    match bo with
    | ByteOrder.littleEndian => b0 + 256 * b1 + 65536 * b2 + 16777216 * b3
    | ByteOrder.bigEndian => b3 + 256 * b2 + 65536 * b1 + 16777216 * b0
  | _ => 0

/-! ## Message Channel: writing (host.go `PostMessage`, `writeHeader`)

A writer (`io.Writer`) is modelled as a function from the call index
(0 = first `Write` call of this `PostMessage` invocation) and the byte
string handed to `Write` to the pair `(n, err)` the writer reports.
`postMessage` additionally returns the trace of byte strings it handed
to the writer, in order, so that retries (there are none) and the bytes
on the wire are observable. -/

/-- The writer behaviour: call index and payload to `(n, err)`. -/
def GoWriter : Type := Nat → List Nat → Nat × Option GoError

/-- A writer that always performs a full, error-free write
(e.g. an in-memory buffer or a healthy pipe). -/
def bufWriter : GoWriter := fun _ bs => (bs.length, none)

/-- The 4 header bytes `PostMessage` emits for a `message` of
`message.length` bytes: Go's `(uint32)(length)` conversion truncates
the non-negative `int` length to its low 32 bits. -/
def headerOf (bo : ByteOrder) (message : List Nat) : List Nat :=
  putUint32 bo (message.length % 2 ^ 32)

/-- host.go `writeHeader`: builds the 4-byte header, writes it, and
returns the writer's error when the write errored or was short
(`if n, err := writer.Write(header); err != nil || n != len(header)`);
note that on a short write with a `nil` error the returned `err` is
`nil`.  Returns the writeHeader result and the payload handed to the
writer. -/
def writeHeader (bo : ByteOrder) (w : GoWriter) (callIdx : Nat)
    (length : Nat) : Option GoError × List Nat :=
  let header := putUint32 bo (length % 2 ^ 32)
  let r := w callIdx header
  if r.2.isSome ∨ r.1 ≠ header.length then (r.2, header) else (none, header)

/-- host.go `PostMessage`, after `json.Marshal` succeeded with bytes
`message` (a `json.Marshal` error is returned before any write; no
write happens in that case, so it is kept outside this function).
Returns the error `PostMessage` returns and the trace of byte strings
written. -/
def postMessage (bo : ByteOrder) (w : GoWriter) (message : List Nat) :
    Option GoError × List (List Nat) :=
  let length := message.length
  let hdr := writeHeader bo w 0 length
  match hdr.1 with
  | some e => (some e, [hdr.2])
  | none =>
    let r := w 1 message
    if r.2.isSome ∨ r.1 ≠ length then (r.2, [hdr.2, message])
    else (none, [hdr.2, message])

/-- The bytes that land on the wire when `PostMessage` runs against a
fully-accepting writer: the concatenation of the written payloads. -/
def postMessageWire (bo : ByteOrder) (message : List Nat) : List Nat :=
  (postMessage bo bufWriter message).2.flatten

/-! ## Message Channel: reading (host.go `OnMessage`, `readHeader`)

The incoming byte source is a finite list of bytes: the source is
exhausted once the list ends.  `binary.Read` of a `uint32` performs
`io.ReadFull` on 4 bytes, whose contract on a plain byte source is:
`io.EOF` when 0 bytes were available, `io.ErrUnexpectedEOF` when 1-3
bytes were, and success otherwise.  Observable process-level effects
(`AutoUpdateCheck`, `runtime.Goexit`) are returned as an event trace. -/

/-- Process-level side effects of the read path. -/
inductive HostEvent : Type where
  | autoUpdateCheck : HostEvent
  | goexit : HostEvent
deriving DecidableEq, Repr

/-- `binary.Read(reader, bo, &length)` over a finite byte source:
either the decoded 32-bit length together with the remaining bytes, or
the `io.ReadFull` error. -/
def binaryReadU32 (bo : ByteOrder) (stream : List Nat) :
    Except GoError (Nat × List Nat) :=
  if 4 ≤ stream.length then
    Except.ok (getUint32 bo (stream.take 4), stream.drop 4)
  else if stream.length = 0 then Except.error GoError.eof
  else Except.error GoError.unexpectedEof

/-- Result of host.go `readHeader`: the decoded length and remaining
source, an error returned to the caller, or the end-of-input path, in
which the goroutine never returns (`runtime.Goexit`). -/
inductive HeaderStep : Type where
  | length : Nat → List Nat → HeaderStep
  | failed : GoError → HeaderStep
  | exited : HeaderStep
deriving DecidableEq, Repr

/-- host.go `readHeader`: on a `binary.Read` error equal to `io.EOF` it
calls `h.AutoUpdateCheck()` and then `runtimeGoexit()`; any other error
is returned to the caller unchanged and with no side effects. -/
def readHeader (r : Except GoError (Nat × List Nat)) :
    HeaderStep × List HostEvent :=
  match r with
  | Except.ok (len, rest) => (HeaderStep.length len rest, [])
  | Except.error e =>
    if e = GoError.eof then
      (HeaderStep.exited, [HostEvent.autoUpdateCheck, HostEvent.goexit])
    else (HeaderStep.failed e, [])

/-- Outcome of `OnMessage`: a decoded message, a no-body success
(`length == 0`: "nothing to read"), an error, or process exit. -/
inductive ReadOutcome (α : Type) : Type where
  | ok : Option α → ReadOutcome α
  | err : GoError → ReadOutcome α
  | exited : ReadOutcome α
deriving DecidableEq, Repr

/-- host.go `OnMessage`: read the header; on success with a non-zero
length, decode the body read through `io.LimitReader(reader, length)`
(that is, at most `length` further bytes) with the JSON decoder
`decode`, an external codec passed in as a function. -/
def OnMessage {α : Type} (bo : ByteOrder)
    (decode : List Nat → Except GoError α) (stream : List Nat) :
    ReadOutcome α × List HostEvent :=
  match readHeader (binaryReadU32 bo stream) with
  | (HeaderStep.exited, tr) => (ReadOutcome.exited, tr)
  | (HeaderStep.failed e, tr) => (ReadOutcome.err e, tr)
  | (HeaderStep.length len rest, tr) =>
    if len = 0 then (ReadOutcome.ok none, tr)
    else
      match decode (rest.take len) with
      | Except.error e => (ReadOutcome.err e, tr)
      | Except.ok v => (ReadOutcome.ok (some v), tr)

/-! ## Update Manifest Parser (updatecheck.go)

XML attributes are optional, so the decoded fields are `Option String`
(`nil` pointers in Go).  The running platform `runtime.GOOS` is a
parameter `goos`. -/

/-- updatecheck.go `Update`: one `updatecheck` element. -/
structure Upd : Type where
  goos : Option String
  url : Option String
  version : Option String
deriving DecidableEq, Repr

/-- updatecheck.go `App`: one `app` element. -/
structure App : Type where
  appId : Option String
  updates : List Upd
deriving DecidableEq, Repr

/-- updatecheck.go `UpdateCheckResponse`: the decoded `gupdate`
document. -/
structure UpdateCheckResponse : Type where
  apps : List App
deriving DecidableEq, Repr

/-- updatecheck.go `(*Update).getGoos`: `nil` attribute decodes as
empty string. -/
def Upd.getGoos (u : Upd) : String :=
  match u.goos with
  | some g => g
  | none => ""

/-- updatecheck.go `(*Update).getUrl`. -/
def Upd.getUrl (u : Upd) : String :=
  match u.url with
  | some s => s
  | none => ""

/-- updatecheck.go `(*Update).getVersion`. -/
def Upd.getVersion (u : Upd) : String :=
  match u.version with
  | some s => s
  | none => ""

/-- updatecheck.go `(*App).getAppId`. -/
def App.getAppId (a : App) : String :=
  match a.appId with
  | some s => s
  | none => ""

/-- The `for`/`break` loop of `(*App).getUrlAndVersion`: url and
version start empty and are set from the first record whose `os` tag
equals `goos`. -/
def findGoos (goos : String) : List Upd → String × String
  | [] => ("", "")
  | u :: rest =>
    if u.getGoos = goos then (u.getUrl, u.getVersion) else findGoos goos rest

/-- updatecheck.go `(*App).getUrlAndVersion`: after the loop, if the
url or the version is still empty and the record list is non-empty,
both are (re)taken from the first record in document order. -/
def App.getUrlAndVersion (goos : String) (a : App) : String × String :=
  let p := findGoos goos a.updates
  match a.updates with
  | [] => p
  | u :: _ =>
    if p.1 = "" ∨ p.2 = "" then (u.getUrl, u.getVersion) else p

/-- The `for`/`break` loop of
`(*UpdateCheckResponse).GetUrlAndVersion`: the first `app` whose id
equals `appName` wins; no match leaves url and version empty. -/
def findApp (goos appName : String) : List App → String × String
  | [] => ("", "")
  | a :: rest =>
    if a.getAppId = appName then a.getUrlAndVersion goos
    else findApp goos appName rest

/-- updatecheck.go `(*UpdateCheckResponse).GetUrlAndVersion`. -/
def UpdateCheckResponse.GetUrlAndVersion (goos appName : String)
    (r : UpdateCheckResponse) : String × String :=
  findApp goos appName r.apps

/-! ## Host configuration and `Init` (host.go)

`os.Executable` / `filepath.EvalSymlinks` / `filepath.Abs` are OS
queries; their combined result is the parameter `exec` of `Init`.
The string helpers `strings.TrimSuffix`, `filepath.Base` (Unix
separator) and `path.Ext` are embedded below. -/

/-- `strings.TrimSuffix` (character-level, which coincides with Go's
byte-level behaviour on the ASCII paths involved). -/
def trimSuffix (s suffix : String) : String :=
  if suffix.toList.isSuffixOf s.toList then
    String.mk (s.toList.take (s.toList.length - suffix.toList.length))
  else s

/-- `filepath.Base` for Unix-style paths: empty path gives ".",
trailing separators are stripped, the last component is kept, and an
all-separator path gives "/". -/
def filepathBase (s : String) : String :=
  if s = "" then "."
  else
    let cs := (s.toList.reverse.dropWhile (fun c => c == '/')).reverse
    let tail := (cs.reverse.takeWhile (fun c => c ≠ '/')).reverse
    if tail = [] then "/" else String.mk tail

/-- `path.Ext`: the suffix of the final slash-separated element
starting at its final dot, or empty when that element has no dot. -/
def pathExt (s : String) : String :=
  let rev := s.toList.reverse
  let seg := rev.takeWhile (fun c => c ≠ '/')
  match seg.findIdx? (fun c => c == '.') with
  | some i => String.mk ((rev.take (i + 1)).reverse)
  | none => ""

/-- host.go `Host`: the native-messaging host configuration record.
`byteOrder = none` models the `nil` interface value. -/
structure Host : Type where
  appName : String
  appDesc : String
  execName : String
  appType : String
  allowedExts : List String
  autoUpdate : Bool
  byteOrder : Option ByteOrder
  updateUrl : String
  version : String
deriving DecidableEq, Repr

/-- host.go `(*Host).Init`: assigns the resolved executable path, then
defaults `AppName`, `AppDesc`, `AppType` and `ByteOrder` when empty or
nil, and sets `AutoUpdate` to true when both `UpdateUrl` and `Version`
are non-empty (the flag is left untouched otherwise). -/
def Host.Init (exec : String) (h : Host) : Host :=
  let h1 := { h with execName := exec }
  let h2 :=
    if h1.appName = "" then
      { h1 with
        appName := trimSuffix (filepathBase h1.execName) (pathExt h1.execName) }
    else h1
  let h3 := if h2.appDesc = "" then { h2 with appDesc := h2.appName } else h2
  let h4 := if h3.appType = "" then { h3 with appType := "stdio" } else h3
  let h5 :=
    if h4.byteOrder = none then
      { h4 with byteOrder := some ByteOrder.littleEndian }
    else h4
  if h5.updateUrl ≠ "" ∧ h5.version ≠ "" then { h5 with autoUpdate := true }
  else h5

/-! ## Update Checker (update.go)

`time.Now()` and the sidecar-file read are clock/filesystem effects:
the `Date()` (year, month, day in local time) of both instants enters
as the environment.  `github.com/hashicorp/go-version` is an external
library: `NewVersion` is modelled on the plain dotted-numeric version
strings this module documents (SemVer core); crucially, the empty
string does not parse, so `version.Must` panics on it, exactly as the
library behaves. -/

/-- A calendar date as produced by Go `time.Time.Date()`. -/
structure Date : Type where
  year : Int
  month : Nat
  day : Nat
deriving DecidableEq, Repr

/-- update.go `isCheckedToday`: the sidecar timestamp's date equals
today's date componentwise. -/
def isCheckedToday (checkDate today : Date) : Bool :=
  checkDate.year == today.year && checkDate.month == today.month &&
    checkDate.day == today.day

/-- Split a character list on `'.'` (the segment split
`strings.Split(segmentsStr, ".")` inside hashicorp `NewVersion`). -/
def splitOnDot : List Char → List (List Char)
  | [] => [[]]
  | c :: rest =>
    let r := splitOnDot rest
    if c = '.' then [] :: r
    else
      match r with
      | [] => [[c]]
      | seg :: segs => (c :: seg) :: segs

/-- Decimal value of a digit string. -/
def digitsToNat (p : List Char) : Nat :=
  p.foldl (fun acc c => 10 * acc + (c.toNat - 48)) 0

/-- Models `version.NewVersion` from hashicorp/go-version on plain
dotted-numeric strings: each dot-separated segment must be a non-empty
digit string; anything else — in particular the empty string — fails to
parse (returns an error in Go, so `version.Must` panics on it). -/
def NewVersion (s : String) : Option (List Nat) :=
  let parts := splitOnDot s.toList
  if parts.all (fun p => !p.isEmpty && p.all Char.isDigit) then
    some (parts.map digitsToNat)
  else none

/-- Models `(*Version).LessThan` (segment comparison with zero padding
of the shorter segment list, as hashicorp/go-version compares). -/
def segLt : List Nat → List Nat → Bool
  | [], [] => false
  | x :: xs, [] => if 0 < x then false else segLt xs []
  | [], y :: ys => if 0 < y then true else segLt [] ys
  | x :: xs, y :: ys =>
    if x < y then true else if y < x then false else segLt xs ys

/-- The outcome of the HTTP GET + XML decode inside
`getDownloadUrlAndVersion` (download.go): `fatal` when the GET fails
(`client.MustGetWithContext` calls `log.Fatalf`, ending the process),
`decodeFailed` when `xml.Decode` errors, `decoded` on success. -/
inductive FetchOutcome : Type where
  | fatal : FetchOutcome
  | decodeFailed : GoError → FetchOutcome
  | decoded : UpdateCheckResponse → FetchOutcome
deriving DecidableEq, Repr

/-- Result of download.go `getDownloadUrlAndVersion` as observed by its
caller: either the process died inside `MustGetWithContext`, or a
`(url, version, err)` triple was returned. -/
inductive GetResult : Type where
  | fatalExit : GetResult
  | ret : String → String → Option GoError → GetResult
deriving DecidableEq, Repr

/-- download.go `getDownloadUrlAndVersion`: url and version start
empty; an XML decode error returns them still empty together with the
error; on success they come from
`UpdateCheckResponse.GetUrlAndVersion`. -/
def getDownloadUrlAndVersion (goos appName : String) (f : FetchOutcome) :
    GetResult :=
  match f with
  | FetchOutcome.fatal => GetResult.fatalExit
  | FetchOutcome.decodeFailed e => GetResult.ret "" "" (some e)
  | FetchOutcome.decoded resp =>
    let p := resp.GetUrlAndVersion goos appName
    GetResult.ret p.1 p.2 none

/-- Environment of one `needUpdate` invocation: the sidecar date, the
current date, the `writeCheckTimestamp` result (only logged — it
affects nothing downstream, which the definition below reflects by not
consulting it), and the fetch outcome. -/
structure UpdateEnv : Type where
  checkDate : Date
  today : Date
  writeErr : Option GoError
  fetch : FetchOutcome
deriving DecidableEq, Repr

/-- How an invocation of update.go `needUpdate` ends: a normal return,
a panic (from `version.Must`), or process death inside the GET. -/
inductive UpdOutcome : Type where
  | ret : Bool → String → UpdOutcome
  | panicked : UpdOutcome
  | fatalExit : UpdOutcome
deriving DecidableEq, Repr

/-- Side effects of `needUpdate` that the claims observe. -/
inductive UpdEvent : Type where
  | wroteTimestamp : UpdEvent
  | fetchedManifest : UpdEvent
deriving DecidableEq, Repr

/-- update.go `needUpdate`: skip everything when already checked today;
otherwise write a fresh timestamp (failures only logged), parse the
local version with `version.Must` (panic on failure), fetch the
manifest (`.fetchedManifest` marks the GET attempt), log any fetch
error but continue, parse the remote version string with
`version.Must` (panic on failure — the remote string is empty exactly
when the fetch or decode failed), and compare. -/
def needUpdate (goos : String) (h : Host) (env : UpdateEnv) :
    UpdOutcome × List UpdEvent :=
  if isCheckedToday env.checkDate env.today then (UpdOutcome.ret false "", [])
  else
    match NewVersion h.version with
    | none => (UpdOutcome.panicked, [UpdEvent.wroteTimestamp])
    | some localV =>
      match getDownloadUrlAndVersion goos h.appName env.fetch with
      | GetResult.fatalExit =>
        (UpdOutcome.fatalExit, [UpdEvent.wroteTimestamp, UpdEvent.fetchedManifest])
      | GetResult.ret url remoteRaw _e =>
        match NewVersion remoteRaw with
        | none =>
          (UpdOutcome.panicked, [UpdEvent.wroteTimestamp, UpdEvent.fetchedManifest])
        | some remoteV =>
          (UpdOutcome.ret (segLt localV remoteV) url,
            [UpdEvent.wroteTimestamp, UpdEvent.fetchedManifest])

/-! ## Atomic Downloader (download.go `downloadLatest`)

The HTTP response and each OS call result enter as an environment; the
filesystem operations actually attempted come back as an event trace in
execution order. -/

/-- One attempted filesystem operation of `downloadLatest`. -/
inductive FsEvent : Type where
  | rename : String → String → FsEvent
  | openTruncWrite : String → FsEvent
  | copyBody : FsEvent
  | removeFile : String → FsEvent
deriving DecidableEq, Repr

/-- Environment of one `downloadLatest` run: `get = none` when the GET
itself failed (`MustGetWithContext` then kills the process), otherwise
the response status code; then the results of `osRename` to the backup
name, `fs.OpenFile`, `ioCopy`, and of the rollback `osRename` (at most
one rollback attempt happens per run, so one field suffices).  The
`os.Remove` cleanup result is ignored by the code — it has no error
check at all — hence no field. -/
structure DLEnv : Type where
  get : Option Nat
  renameToBak : Option GoError
  openRes : Option GoError
  copyRes : Option GoError
  renameBack : Option GoError
deriving DecidableEq, Repr

/-- How `downloadLatest` ends: a normal return (with the returned
error, if any) or process death inside the GET. -/
inductive DLOutcome : Type where
  | ret : Option GoError → DLOutcome
  | fatalExit : DLOutcome
deriving DecidableEq, Repr

/-- download.go `downloadLatest`: non-OK status returns an error before
any filesystem operation; a failed backup rename returns immediately;
an open or copy failure triggers one rollback rename, and when that
rollback itself fails the two errors are combined with
`fmt.Errorf("%w %v", err, mvErr)`; on success the backup is removed. -/
def downloadLatest (execName : String) (env : DLEnv) :
    DLOutcome × List FsEvent :=
  match env.get with
  | none => (DLOutcome.fatalExit, [])
  | some status =>
    if status ≠ 200 then (DLOutcome.ret (some (GoError.statusErr status)), [])
    else
      let backupName := execName ++ ".bak"
      match env.renameToBak with
      | some e => (DLOutcome.ret (some e), [FsEvent.rename execName backupName])
      | none =>
        match env.openRes with
        | some e =>
          let tr := [FsEvent.rename execName backupName,
            FsEvent.rename backupName execName]
          match env.renameBack with
          | some m => (DLOutcome.ret (some (GoError.wrapped e m)), tr)
          | none => (DLOutcome.ret (some e), tr)
        | none =>
          match env.copyRes with
          | some e =>
            let tr := [FsEvent.rename execName backupName,
              FsEvent.openTruncWrite execName, FsEvent.copyBody,
              FsEvent.rename backupName execName]
            match env.renameBack with
            | some m => (DLOutcome.ret (some (GoError.wrapped e m)), tr)
            | none => (DLOutcome.ret (some e), tr)
          | none =>
            (DLOutcome.ret none,
              [FsEvent.rename execName backupName,
                FsEvent.openTruncWrite execName, FsEvent.copyBody,
                FsEvent.removeFile backupName])

/-! ## Concrete sample inputs used by counterexamples and witnesses -/

/-- A fully-configured host (both `UpdateUrl` and `Version` set). -/
def sampleHost : Host :=
  { appName := "tld.domain.app", appDesc := "tld.domain.app",
    execName := "/opt/app/bin/app", appType := "stdio", allowedExts := [],
    autoUpdate := true, byteOrder := some ByteOrder.littleEndian,
    updateUrl := "https://sub.domain.tld/updates.xml", version := "1.0.0" }

/-- A host whose caller pre-set `AutoUpdate := true` while leaving
`UpdateUrl` empty. -/
def presetHost : Host :=
  { appName := "a", appDesc := "a", execName := "", appType := "stdio",
    allowedExts := [], autoUpdate := true,
    byteOrder := some ByteOrder.littleEndian, updateUrl := "",
    version := "1.0.0" }

/-- An application whose first record is tagged `windows` and whose
`linux`-tagged record carries no `codebase` attribute. -/
def mixedApp : App :=
  { appId := some "tld.domain.app",
    updates :=
      [{ goos := some "windows", url := some "https://d/app.exe",
          version := some "2.0.0" },
        { goos := some "linux", url := none, version := some "2.1.0" }] }

/-- An application with a complete `linux` record in second position. -/
def taggedApp : App :=
  { appId := some "tld.domain.app",
    updates :=
      [{ goos := some "windows", url := some "https://d/app.exe",
          version := some "2.0.0" },
        { goos := some "linux", url := some "https://d/app.linux",
          version := some "2.0.0" }] }

/-- An application with a single untagged record. -/
def untaggedApp : App :=
  { appId := some "tld.domain.app",
    updates :=
      [{ goos := none, url := some "https://d/app.all",
          version := some "2.0.0" }] }

/-- An encoder producing a 2^32-byte output (the smallest size at which
the `uint32` header conversion wraps). -/
def bigEnc : Unit → List Nat := fun _ => List.replicate (2 ^ 32) 65

/-- A decoder that accepts exactly the 2^32-byte output of `bigEnc`,
inspecting only the length (so `bigDec (bigEnc ()) = ok ()`). -/
def bigDec : List Nat → Except GoError Unit := fun l =>
  if l.length = 2 ^ 32 then Except.ok () else Except.error (GoError.tagged "short")

/-- An identity JSON stand-in codec over raw byte lists. -/
def rawDec : List Nat → Except GoError (List Nat) := fun l => Except.ok l

/-- A writer that reports writing nothing yet returns a nil error,
violating the `io.Writer` contract on every call. -/
def shortNilWriter : GoWriter := fun _ _ => (0, none)

/-- A writer whose first (header) write fails with a hard error. -/
def brokenPipeWriter : GoWriter := fun i bs =>
  if i = 0 then (0, some (GoError.tagged "broken pipe")) else (bs.length, none)

/-! ## Helper lemmas -/

theorem putUint32_length (bo : ByteOrder) (v : Nat) :
    (putUint32 bo v).length = 4 := by
  cases bo <;> rfl

theorem getUint32_putUint32 (bo : ByteOrder) (v : Nat) :
    getUint32 bo (putUint32 bo v) = v % 2 ^ 32 := by
  cases bo <;> simp only [putUint32, getUint32] <;> omega

theorem postMessage_bufWriter (bo : ByteOrder) (message : List Nat) :
    postMessage bo bufWriter message =
      (none, [headerOf bo message, message]) := by
  simp [postMessage, writeHeader, bufWriter, headerOf]

theorem postMessageWire_eq (bo : ByteOrder) (message : List Nat) :
    postMessageWire bo message = headerOf bo message ++ message := by
  simp [postMessageWire, postMessage_bufWriter]

/-- The loop of `getUrlAndVersion` returns exactly the first matching
record's url/version pair (`List.find?` formulation). -/
theorem findGoos_eq_find (goos : String) (l : List Upd) :
    findGoos goos l =
      match l.find? (fun u => u.getGoos == goos) with
      | some u => (u.getUrl, u.getVersion)
      | none => ("", "") := by
  induction l with
  | nil => rfl
  | cons u rest ih =>
    by_cases h : u.getGoos = goos
    · simp [findGoos, h, List.find?]
    · have hb : (u.getGoos == goos) = false := beq_eq_false_iff_ne.mpr h
      simp only [findGoos, if_neg h, List.find?, hb]
      exact ih

theorem Host.Init_autoUpdate (exec : String) (h : Host) :
    (h.Init exec).autoUpdate =
      (h.autoUpdate || (h.updateUrl ≠ "" && h.version ≠ "")) := by
  simp only [Host.Init]
  split <;> split <;> split <;> split <;> split <;>
    simp_all [Bool.or_eq_true]

theorem Host.Init_updateUrl (exec : String) (h : Host) :
    (h.Init exec).updateUrl = h.updateUrl := by
  simp only [Host.Init]
  split <;> split <;> split <;> split <;> split <;> rfl

theorem Host.Init_version (exec : String) (h : Host) :
    (h.Init exec).version = h.version := by
  simp only [Host.Init]
  split <;> split <;> split <;> split <;> split <;> rfl

/-- `errMentions` finds an error in itself. -/
theorem errMentions_self (e : GoError) : errMentions e e = true := by
  cases e <;> simp [errMentions]

/-- A `wrapped` combination preserves its left component. -/
theorem errMentions_wrapped_left (a b : GoError) :
    errMentions (GoError.wrapped a b) a = true := by
  simp [errMentions, errMentions_self]

/-- A `wrapped` combination preserves its right component. -/
theorem errMentions_wrapped_right (a b : GoError) :
    errMentions (GoError.wrapped a b) b = true := by
  simp [errMentions, errMentions_self]

/-- `isCheckedToday` is calendar-date equality. -/
theorem isCheckedToday_iff (c t : Date) : isCheckedToday c t = true ↔ c = t := by
  cases c
  cases t
  simp [isCheckedToday, Date.mk.injEq, and_assoc]

/-! ## Claim theorems -/

/-- C4: for every HTTP response whose status is not exactly 200 (OK),
`downloadLatest` returns an error and performs no filesystem mutation:
no rename of the executable to the backup path, no open/truncate of the
executable, and no copy is attempted (the event trace is empty). -/
theorem C4_non_ok_status_no_mutation (execName : String) (env : DLEnv)
    (status : Nat) (hg : env.get = some status) (hs : status ≠ 200) :
    downloadLatest execName env =
      (DLOutcome.ret (some (GoError.statusErr status)), []) := by
  simp [downloadLatest, hg, hs]

/-- C4 witness: a 404 response returns the status error with an empty
filesystem trace. -/
theorem C4_non_ok_status_no_mutation_witness :
    downloadLatest "/opt/app/bin/app"
      { get := some 404, renameToBak := none, openRes := none,
        copyRes := none, renameBack := none } =
      (DLOutcome.ret (some (GoError.statusErr 404)), []) :=
  C4_non_ok_status_no_mutation "/opt/app/bin/app" _ 404 rfl (by decide)

/-- C5: in `downloadLatest`, whenever the open-for-write step or the
body-copy step fails after a successful backup rename and the rollback
rename also fails, the returned error is the `fmt.Errorf("%w %v", ...)`
combination preserving both the original cause and the rollback
failure; when the rollback succeeds, the original cause alone is
returned. -/
theorem C5_rollback_error_policy (execName : String) (env : DLEnv)
    (e m : GoError) (hg : env.get = some 200)
    (hb : env.renameToBak = none)
    (hcause : env.openRes = some e ∨
      (env.openRes = none ∧ env.copyRes = some e)) :
    (env.renameBack = some m →
      (downloadLatest execName env).1 =
        DLOutcome.ret (some (GoError.wrapped e m)) ∧
      errMentions (GoError.wrapped e m) e = true ∧
      errMentions (GoError.wrapped e m) m = true)
    ∧ (env.renameBack = none →
      (downloadLatest execName env).1 = DLOutcome.ret (some e)) := by
  constructor
  · intro hr
    rcases hcause with ho | ⟨ho, hc⟩
    · simp [downloadLatest, hg, hb, ho, hr, errMentions_wrapped_left,
        errMentions_wrapped_right]
    · simp [downloadLatest, hg, hb, ho, hc, hr, errMentions_wrapped_left,
        errMentions_wrapped_right]
  · intro hr
    rcases hcause with ho | ⟨ho, hc⟩
    · simp [downloadLatest, hg, hb, ho, hr]
    · simp [downloadLatest, hg, hb, ho, hc, hr]

/-- C5 witness: open-for-write fails and the rollback rename also
fails; the combined error preserves both causes. -/
theorem C5_rollback_error_policy_witness :
    (downloadLatest "/opt/app/bin/app"
      { get := some 200, renameToBak := none,
        openRes := some (GoError.tagged "open failed"), copyRes := none,
        renameBack := some (GoError.tagged "rollback failed") }).1 =
      DLOutcome.ret (some (GoError.wrapped (GoError.tagged "open failed")
        (GoError.tagged "rollback failed")))
    ∧ errMentions (GoError.wrapped (GoError.tagged "open failed")
        (GoError.tagged "rollback failed")) (GoError.tagged "open failed") = true
    ∧ errMentions (GoError.wrapped (GoError.tagged "open failed")
        (GoError.tagged "rollback failed")) (GoError.tagged "rollback failed") =
      true :=
  (C5_rollback_error_policy "/opt/app/bin/app" _ (GoError.tagged "open failed")
    (GoError.tagged "rollback failed") rfl rfl (Or.inl rfl)).1 rfl

/-- C6: when the sidecar timestamp read by `needUpdate` carries the
same calendar date (year, month, day) as the current time, the check
performs no network fetch and returns the "no update" outcome; when the
dates differ (and the configured version parses, the fatal
precondition), the network check is performed (exactly one manifest
fetch). -/
theorem C6_daily_gate (goos : String) (h : Host) (env : UpdateEnv) :
    (env.checkDate = env.today →
      needUpdate goos h env = (UpdOutcome.ret false "", []))
    ∧ (env.checkDate ≠ env.today → NewVersion h.version ≠ none →
      (needUpdate goos h env).2.count UpdEvent.fetchedManifest = 1) := by
  constructor
  · intro hd
    have hc : isCheckedToday env.checkDate env.today = true :=
      (isCheckedToday_iff _ _).mpr hd
    simp [needUpdate, hc]
  · intro hd hv
    have hc : isCheckedToday env.checkDate env.today = false := by
      rcases Bool.eq_false_or_eq_true (isCheckedToday env.checkDate env.today)
        with h0 | h0
      · exact absurd ((isCheckedToday_iff _ _).mp h0) hd
      · exact h0
    rcases hver : NewVersion h.version with _ | localV
    · exact absurd hver hv
    · rcases hf : getDownloadUrlAndVersion goos h.appName env.fetch
        with _ | ⟨url, raw, er⟩
      · simp [needUpdate, hc, hver, hf]
      · rcases hr : NewVersion raw with _ | rv
        · simp [needUpdate, hc, hver, hf, hr]
        · simp [needUpdate, hc, hver, hf, hr]

/-- C6 witness: same date skips the fetch with "no update"; across a
date boundary the manifest fetch happens once. -/
theorem C6_daily_gate_witness :
    needUpdate "linux" sampleHost
      { checkDate := ⟨2026, 10, 11⟩, today := ⟨2026, 10, 11⟩,
        writeErr := none, fetch := FetchOutcome.fatal } =
      (UpdOutcome.ret false "", [])
    ∧ (needUpdate "linux" sampleHost
      { checkDate := ⟨2026, 10, 10⟩, today := ⟨2026, 10, 11⟩,
        writeErr := none,
        fetch := FetchOutcome.decoded { apps := [] } }).2.count
        UpdEvent.fetchedManifest = 1 :=
  ⟨(C6_daily_gate "linux" sampleHost _).1 rfl,
    (C6_daily_gate "linux" sampleHost _).2 (by decide) (by decide)⟩

/-- C10: for every message of `n` bytes, `PostMessage` writes the
4-byte header as `n mod 2^32` laid out in the configured byte order; in
particular the header silently wraps for 2^32 bytes or more and no
error is returned for the oversized length (the run against a
fully-accepting writer returns `none`). -/
theorem C10_header_wraps_mod_2_32 (bo : ByteOrder) (message : List Nat) :
    postMessage bo bufWriter message =
      (none, [putUint32 bo (message.length % 2 ^ 32), message])
    ∧ getUint32 bo (headerOf bo message) = message.length % 2 ^ 32 := by
  refine ⟨postMessage_bufWriter bo message, ?_⟩
  rw [headerOf, getUint32_putUint32]
  omega

/-- C1: the claim says a fetch/decode failure makes `needUpdate` return
false ("no update") after logging, never panicking or ending the
process.  Evaluating the embedded code shows the opposite: when the
manifest decode fails, `getDownloadUrlAndVersion` hands back an empty
remote version string and `version.Must(version.NewVersion(""))`
panics; when the HTTP GET itself fails, `client.MustGetWithContext`
ends the process via `log.Fatalf`. -/
theorem C1_needUpdate_crash_evaluation :
    needUpdate "linux" sampleHost
      { checkDate := ⟨2026, 10, 10⟩, today := ⟨2026, 10, 11⟩,
        writeErr := none,
        fetch := FetchOutcome.decodeFailed (GoError.tagged "XML syntax error") } =
      (UpdOutcome.panicked, [UpdEvent.wroteTimestamp, UpdEvent.fetchedManifest])
    ∧ needUpdate "linux" sampleHost
      { checkDate := ⟨2026, 10, 10⟩, today := ⟨2026, 10, 11⟩,
        writeErr := none, fetch := FetchOutcome.fatal } =
      (UpdOutcome.fatalExit, [UpdEvent.wroteTimestamp, UpdEvent.fetchedManifest]) := by
  constructor <;> rfl

/-- C2 counterexample: a reader exhausted after 1 header byte.  The
claim says this invokes the update check once and terminates the
process; the code only matches `io.EOF` (zero bytes read), so
`binary.Read`'s `io.ErrUnexpectedEOF` is returned to the caller and the
update check never runs. -/
theorem C2_partial_header_counterexample :
    (OnMessage ByteOrder.littleEndian rawDec [1]).1 =
      ReadOutcome.err GoError.unexpectedEof
    ∧ (OnMessage ByteOrder.littleEndian rawDec [1]).2.count
        HostEvent.autoUpdateCheck = 0 := by
  constructor <;> rfl

/-- C2 (amended): only exhaustion with zero header bytes read
(`io.EOF`) triggers the update check — exactly once — followed by
process termination; exhaustion after 1-3 header bytes surfaces as
`io.ErrUnexpectedEOF` and is returned to the caller with no side
effects, like every other header-read error. -/
theorem C2_end_of_input_discipline (bo : ByteOrder) {α : Type}
    (decode : List Nat → Except GoError α) (stream : List Nat) (e : GoError) :
    (stream = [] →
      OnMessage bo decode stream =
        (ReadOutcome.exited, [HostEvent.autoUpdateCheck, HostEvent.goexit]))
    ∧ (1 ≤ stream.length → stream.length ≤ 3 →
      OnMessage bo decode stream = (ReadOutcome.err GoError.unexpectedEof, []))
    ∧ (e ≠ GoError.eof →
      readHeader (Except.error e) = (HeaderStep.failed e, [])) := by
  refine ⟨?_, ?_, ?_⟩
  · intro h
    subst h
    rfl
  · intro h1 h3
    have h4 : ¬ 4 ≤ stream.length := by omega
    have h0 : ¬ stream.length = 0 := by omega
    simp [OnMessage, binaryReadU32, h4, h0, readHeader]
  · intro he
    simp [readHeader, he]

/-- C2 witness: empty input triggers one check then exit; a 2-byte
input yields `io.ErrUnexpectedEOF` with no events; a non-EOF read error
is handed back unchanged. -/
theorem C2_end_of_input_discipline_witness :
    OnMessage ByteOrder.littleEndian rawDec [] =
      (ReadOutcome.exited, [HostEvent.autoUpdateCheck, HostEvent.goexit])
    ∧ OnMessage ByteOrder.littleEndian rawDec [9, 9] =
      (ReadOutcome.err GoError.unexpectedEof, [])
    ∧ readHeader (Except.error (GoError.tagged "bad file descriptor")) =
      (HeaderStep.failed (GoError.tagged "bad file descriptor"), []) :=
  ⟨(C2_end_of_input_discipline ByteOrder.littleEndian rawDec []
      (GoError.tagged "x")).1 rfl,
    (C2_end_of_input_discipline ByteOrder.littleEndian rawDec [9, 9]
      (GoError.tagged "x")).2.1 (by decide) (by decide),
    (C2_end_of_input_discipline ByteOrder.littleEndian rawDec []
      (GoError.tagged "bad file descriptor")).2.2 (by decide)⟩

/-- C3 counterexample: on platform `linux`, the first (and only)
record whose platform tag equals `linux` has no `codebase` attribute,
so its url decodes as empty; the claim says `getUrlAndVersion` returns
that record's `("", "2.1.0")`, but the code's fallback overrides a
matched-but-empty pair with the first record in document order and
returns `("https://d/app.exe", "2.0.0")` instead — so a match existing
does not prevent the fallback. -/
theorem C3_empty_match_counterexample :
    mixedApp.updates.find? (fun x => x.getGoos == "linux") =
      some { goos := some "linux", url := none, version := some "2.1.0" }
    ∧ App.getUrlAndVersion "linux" mixedApp = ("https://d/app.exe", "2.0.0")
    ∧ ("https://d/app.exe", "2.0.0") ≠
      (Upd.getUrl { goos := some "linux", url := none, version := some "2.1.0" },
        Upd.getVersion
          { goos := some "linux", url := none, version := some "2.1.0" }) := by
  refine ⟨by decide, by decide, by decide⟩

/-- C3 (amended): `getUrlAndVersion` returns the first
platform-matching record's `(url, version)` when both components are
non-empty; when no record matches — or the matching record's url or
version is empty — it returns the `(url, version)` of the first record
in document order (given a non-empty record list). -/
theorem C3_record_selection (goos : String) (a : App) :
    (∀ u, a.updates.find? (fun x => x.getGoos == goos) = some u →
      u.getUrl ≠ "" → u.getVersion ≠ "" →
      App.getUrlAndVersion goos a = (u.getUrl, u.getVersion))
    ∧ (∀ u0 rest, a.updates = u0 :: rest →
      (a.updates.find? (fun x => x.getGoos == goos) = none ∨
        ∃ u, a.updates.find? (fun x => x.getGoos == goos) = some u ∧
          (u.getUrl = "" ∨ u.getVersion = "")) →
      App.getUrlAndVersion goos a = (u0.getUrl, u0.getVersion)) := by
  constructor
  · intro u hf hu hv
    have hp : findGoos goos a.updates = (u.getUrl, u.getVersion) := by
      rw [findGoos_eq_find, hf]
    cases hl : a.updates with
    | nil =>
      rw [hl] at hf
      simp [List.find?] at hf
    | cons u0 rest =>
      rw [hl] at hp
      simp only [App.getUrlAndVersion, hl, hp]
      simp [hu, hv]
  · intro u0 rest hl hc
    rcases hc with hn | ⟨u, hf, hor⟩
    · have hp : findGoos goos a.updates = ("", "") := by
        rw [findGoos_eq_find, hn]
      rw [hl] at hp
      simp only [App.getUrlAndVersion, hl, hp]
      simp
    · have hp : findGoos goos a.updates = (u.getUrl, u.getVersion) := by
        rw [findGoos_eq_find, hf]
      rw [hl] at hp
      simp only [App.getUrlAndVersion, hl, hp]
      rcases hor with h1 | h1 <;> simp [h1]

/-- C3 witness: a complete `linux` record in second position is
selected on platform `linux`; a single untagged record is the fallback
for platform `linux`. -/
theorem C3_record_selection_witness :
    App.getUrlAndVersion "linux" taggedApp = ("https://d/app.linux", "2.0.0")
    ∧ App.getUrlAndVersion "linux" untaggedApp = ("https://d/app.all", "2.0.0") :=
  ⟨(C3_record_selection "linux" taggedApp).1
      { goos := some "linux", url := some "https://d/app.linux",
        version := some "2.0.0" } (by decide) (by decide) (by decide),
    (C3_record_selection "linux" untaggedApp).2
      { goos := none, url := some "https://d/app.all", version := some "2.0.0" }
      [] rfl (Or.inl (by decide))⟩

/-- A zero header (any message whose length is divisible by 2^32 —
the wrapped header of every 2^32-byte message in particular) makes
`OnMessage` report "nothing to read" without consulting the decoder. -/
theorem onMessage_wrapped_zero {α : Type} (bo : ByteOrder)
    (decode : List Nat → Except GoError α) (msg : List Nat)
    (h : msg.length % 2 ^ 32 = 0) :
    OnMessage bo decode (postMessageWire bo msg) =
      (ReadOutcome.ok none, []) := by
  rw [postMessageWire_eq]
  have hlen4 : (headerOf bo msg).length = 4 := putUint32_length _ _
  have hlen : 4 ≤ (headerOf bo msg ++ msg).length := by
    rw [List.length_append, hlen4]
    omega
  have htake : (headerOf bo msg ++ msg).take 4 = headerOf bo msg :=
    List.take_left' hlen4
  have hget : getUint32 bo (headerOf bo msg) = 0 := by
    rw [headerOf, getUint32_putUint32]
    omega
  have hlen' : 4 ≤ (headerOf bo msg).length + msg.length := by
    rw [hlen4]
    omega
  simp [OnMessage, binaryReadU32, if_pos hlen, htake, hget, readHeader, hlen']

/-- C7 counterexample: a value whose encoding is exactly 2^32 bytes
(the codec itself is a faithful inverse on it).  The header wraps to 0,
so `OnMessage` reads a zero length and returns "no message" instead of
the value: the round trip fails for encodings of 2^32 bytes or more. -/
theorem C7_wraparound_counterexample :
    bigDec (bigEnc ()) = Except.ok ()
    ∧ (OnMessage ByteOrder.littleEndian bigDec
        (postMessageWire ByteOrder.littleEndian (bigEnc ()))).1 =
      ReadOutcome.ok none
    ∧ ReadOutcome.ok (none : Option Unit) ≠ ReadOutcome.ok (some ()) := by
  have henc : (bigEnc ()).length = 2 ^ 32 := by
    unfold bigEnc
    exact List.length_replicate _ _
  refine ⟨?_, ?_, by simp⟩
  · unfold bigDec
    rw [if_pos henc]
  · rw [onMessage_wrapped_zero ByteOrder.littleEndian bigDec (bigEnc ())
      (by rw [henc]; exact Nat.mod_self _)]

/-- C7 (amended): for every value whose encoding under the (assumed
faithful) JSON codec is non-empty — JSON encodings always are — and
shorter than 2^32 bytes, reading the bytes `PostMessage` produced with
`OnMessage` under the same byte order yields the value back. -/
theorem C7_framing_roundtrip {α : Type} (bo : ByteOrder)
    (encode : α → List Nat) (decode : List Nat → Except GoError α) (v : α)
    (hdec : decode (encode v) = Except.ok v)
    (hpos : 0 < (encode v).length) (hlt : (encode v).length < 2 ^ 32) :
    OnMessage bo decode (postMessageWire bo (encode v)) =
      (ReadOutcome.ok (some v), []) := by
  rw [postMessageWire_eq]
  have hlen4 : (headerOf bo (encode v)).length = 4 := putUint32_length _ _
  have hlen : 4 ≤ (headerOf bo (encode v) ++ encode v).length := by
    rw [List.length_append, hlen4]
    omega
  have htake : (headerOf bo (encode v) ++ encode v).take 4 =
      headerOf bo (encode v) := List.take_left' hlen4
  have hdrop : (headerOf bo (encode v) ++ encode v).drop 4 = encode v :=
    List.drop_left' hlen4
  have hget : getUint32 bo (headerOf bo (encode v)) = (encode v).length := by
    rw [headerOf, getUint32_putUint32]
    omega
  have hne : ¬ (encode v).length = 0 := by omega
  have hlen' : 4 ≤ (headerOf bo (encode v)).length + (encode v).length := by
    rw [hlen4]
    omega
  simp [OnMessage, binaryReadU32, if_pos hlen, htake, hdrop, hget, readHeader,
    hne, hlen', List.take_length, hdec]

/-- C7 witness: a concrete 3-byte encoding round-trips. -/
theorem C7_framing_roundtrip_witness :
    OnMessage ByteOrder.littleEndian rawDec
      (postMessageWire ByteOrder.littleEndian
        ((fun l => l) [123, 55, 125])) =
      (ReadOutcome.ok (some [123, 55, 125]), []) :=
  C7_framing_roundtrip ByteOrder.littleEndian (fun l => l) rawDec
    [123, 55, 125] rfl (by decide) (by decide)

/-- C8 counterexample: a writer that violates the `io.Writer` contract
by reporting a short write (0 of the requested bytes) with a nil error.
The claim says `PostMessage` returns a non-nil error for every short
write; the code detects the short write but returns the writer's nil
error, so `PostMessage` reports success — and the short header write
did not even stop it from attempting the body write. -/
theorem C8_short_write_nil_error_counterexample :
    postMessage ByteOrder.littleEndian shortNilWriter [65] =
      (none, [[1, 0, 0, 0], [65]]) := by
  rfl

/-- C8 (amended): whenever a header or body write returns a non-nil
error, `PostMessage` returns that error, and nothing is retried: at
most one header write and one body write are ever issued (trace length
at most 2).  A short write is detected as a stopping condition but
propagates the writer's own error value, which is nil exactly when the
writer breaks the `io.Writer` contract. -/
theorem C8_write_error_propagation (bo : ByteOrder) (w : GoWriter)
    (message : List Nat) (e : GoError) :
    (postMessage bo w message).2.length ≤ 2
    ∧ ((w 0 (headerOf bo message)).2 = some e →
      (postMessage bo w message).1 = some e)
    ∧ ((w 0 (headerOf bo message)).2 = none → (w 1 message).2 = some e →
      (postMessage bo w message).1 = some e) := by
  refine ⟨?_, ?_, ?_⟩
  · simp only [postMessage, writeHeader]
    split
    · simp
    · split <;> simp
  · intro h
    simp only [headerOf] at h
    simp only [postMessage, writeHeader, h]
    simp
  · intro h he
    simp only [headerOf] at h
    simp only [postMessage, writeHeader, h, he]
    simp

/-- C8 witness: a hard header-write error is returned to the caller. -/
theorem C8_write_error_propagation_witness :
    (postMessage ByteOrder.littleEndian brokenPipeWriter [65]).1 =
      some (GoError.tagged "broken pipe") :=
  (C8_write_error_propagation ByteOrder.littleEndian brokenPipeWriter [65]
    (GoError.tagged "broken pipe")).2.1 rfl

/-- C9 counterexample: a host whose caller pre-set `AutoUpdate := true`
while leaving `UpdateUrl` empty.  `Init` never clears the flag, so
after `Init` the flag is true with an empty update URL, refuting the
claimed "if and only if". -/
theorem C9_preset_flag_counterexample :
    (presetHost.Init "/opt/app/bin/app").autoUpdate = true
    ∧ (presetHost.Init "/opt/app/bin/app").updateUrl = "" := by
  constructor <;> rfl

/-- C9 (amended): after `Init`, the auto-update flag equals the
disjunction of its initial value with "both `UpdateUrl` and `Version`
are non-empty"; in particular, for every host whose flag started at its
zero value `false`, the claimed equivalence holds: the flag is true iff
both fields are non-empty. -/
theorem C9_autoUpdate_invariant (exec : String) (h : Host) :
    (h.Init exec).autoUpdate =
      (h.autoUpdate || (h.updateUrl ≠ "" && h.version ≠ ""))
    ∧ (h.autoUpdate = false →
      ((h.Init exec).autoUpdate = true ↔
        ((h.Init exec).updateUrl ≠ "" ∧ (h.Init exec).version ≠ ""))) := by
  refine ⟨Host.Init_autoUpdate exec h, ?_⟩
  intro h0
  rw [Host.Init_autoUpdate, Host.Init_updateUrl, Host.Init_version, h0]
  simp

/-- C9 witness: a zero-flag host with both fields set gets
`AutoUpdate = true` from `Init`. -/
theorem C9_autoUpdate_invariant_witness :
    (({ appName := "app", appDesc := "app", execName := "",
        appType := "stdio", allowedExts := [], autoUpdate := false,
        byteOrder := some ByteOrder.littleEndian,
        updateUrl := "https://sub.domain.tld/updates.xml",
        version := "1.0.0" : Host }).Init "/opt/app/bin/app").autoUpdate =
      true :=
  ((C9_autoUpdate_invariant "/opt/app/bin/app"
      { appName := "app", appDesc := "app", execName := "",
        appType := "stdio", allowedExts := [], autoUpdate := false,
        byteOrder := some ByteOrder.littleEndian,
        updateUrl := "https://sub.domain.tld/updates.xml",
        version := "1.0.0" }).2 rfl).mpr ⟨by decide, by decide⟩

end NmHost
